import Mathlib

/-!
Shallow embedding of `mothergeo/codetools.py`: the `TryGetResult` named
tuple, the `Enums.from_name` resolver, the `Dicts.try_get` accessor and the
`Iters.count` / `Iters.get_item_at` helpers, together with proofs about them.
-/

set_option autoImplicit false

namespace Codetools

/-- Python exceptions raised by the embedded code.  `valueError` embeds
`ValueError` (the spec's `InvalidArgument`), `keyError` embeds `KeyError`
(the spec's `KeyNotFound`) carrying the key it was raised with, `indexError`
embeds `IndexError` (the spec's `IndexOutOfRange`), and `attributeError`
embeds the `AttributeError` a case-insensitive dictionary lookup raises when
the key is not a string. -/
inductive PyErr where
  | valueError (msg : String)
  | keyError (key : String)
  | indexError
  | attributeError
  deriving DecidableEq, Repr

/-- The dynamic values `from_name` can receive as its `name` argument and
return: a plain string, or an enumeration member.  A member is identified by
the identity of its class (`cls`, embedding Python object identity of the
`Enum` subclass) and its name within that class. -/
inductive PyVal where
  | str (s : String)
  | member (cls : Nat) (name : String)
  deriving DecidableEq, Repr

/-- A Python class as `from_name` observes it: its identity (`clsId`),
whether it is a subclass of `enum.Enum` (`issubclass(cls, Enum)`), whether a
plain string is an instance of it (`isinstance("…", cls)`, true for `str`
and its superclasses such as `object`, always false for an `Enum` subclass
because `str` is never a subclass of one), and its `__members__` in
definition order. -/
structure PyClass where
  clsId : Nat
  isEnumSubclass : Bool
  strIsInstance : Bool
  members : List String
  deriving DecidableEq, Repr

/-- `isinstance(v, cls)` for the values `PyVal` embeds. -/
def pyIsInstance (v : PyVal) (cls : PyClass) : Bool :=
  match v with
  | .str _ => cls.strIsInstance
  | .member c _ => c == cls.clsId

/-- The Python `str.lower()` of the ASCII strings in play, embedded
structurally (character-wise lower-casing of the string's characters). -/
def pyLower (s : String) : String :=
  String.mk (s.data.map Char.toLower)

/-- The `insensitive_dict.CaseInsensitiveDict` storing enumeration members:
entries keyed by the lower-cased member name. -/
abbrev CIDict : Type := List (String × PyVal)

/-- Insertion into a `CaseInsensitiveDict`: the key is compared
case-insensitively (by lower-casing); an existing entry for the same
case-folded key is overwritten, otherwise the entry is appended. -/
def ciInsert (d : CIDict) (k : String) (v : PyVal) : CIDict :=
  if d.any fun p => p.1 == pyLower k then
    d.map fun p => if p.1 == pyLower k then (p.1, v) else p
  else d ++ [(pyLower k, v)]

/-- Case-insensitive lookup: the query key is lower-cased and looked up
among the (already lower-cased) stored keys. -/
def ciLookup (d : CIDict) (k : String) : Option PyVal :=
  d.lookup (pyLower k)

/-- `CaseInsensitiveDict(dict(enum_cls.__members__.items()))`: the index of
member names to members built on the first lookup for `enum_cls`
(codetools.py line 60).  `dict` preserves definition order, so entries are
inserted in member order and a later member whose name collides
case-insensitively with an earlier one overwrites it. -/
def buildIndex (cls : PyClass) : CIDict :=
  cls.members.foldl (fun d n => ciInsert d n (PyVal.member cls.clsId n)) []

/-- The `ValueError` message of codetools.py line 49:
`'enum_class must be of type {typ}'.format(typ=type(Enum))`. -/
def enumClassMsg : String :=
  "enum_class must be of type <class 'enum.EnumMeta'>"

/-- `Enums.from_name(enum_cls, name)` (codetools.py lines 31-64).  The
process-wide cache `Enums._names2members` is embedded by passing in the
cache entry currently stored for `enum_cls` (`cached`, `none` on the first
call) and returning the entry stored after the call.

Control flow of the source: (1) if `isinstance(name, enum_cls)`, return
`name` unchanged; (2) if not `issubclass(enum_cls, Enum)`, raise
`ValueError`; (3) fetch the cached index or build and store it; (4) return
`symbols2members[name]`, a case-insensitive lookup raising `KeyError` when
no member name matches, and `AttributeError` when `name` is not a string
(the dictionary lower-cases its key). -/
def Enums.from_name (cls : PyClass) (cached : Option CIDict) (name : PyVal) :
    Except PyErr PyVal × Option CIDict :=
  if pyIsInstance name cls then (Except.ok name, cached)
  else if !cls.isEnumSubclass then
    (Except.error (PyErr.valueError enumClassMsg), cached)
  else
    let symbols2members := match cached with
      | some d => d
      | none => buildIndex cls
    match name with
    | .str s =>
      match ciLookup symbols2members s with
      | some m => (Except.ok m, some symbols2members)
      | none => (Except.error (PyErr.keyError s), some symbols2members)
    | .member _ _ => (Except.error PyErr.attributeError, some symbols2members)

/-- `TryGetResult`, a named tuple with fields `result` and `value`
(codetools.py line 18). -/
structure TryGetResult (α : Type) where
  result : Bool
  value : α
  deriving DecidableEq, Repr

/-- The field names declared in `namedtuple('TryResult', ['result', 'value'])`
(codetools.py line 18), in positional order. -/
def TryGetResult.fieldNames : List String := ["result", "value"]

/-- The tuple view of a `TryGetResult`: positional access `r[0]`, `r[1]`. -/
def TryGetResult.toPair {α : Type} (r : TryGetResult α) : Bool × α :=
  (r.result, r.value)

/-- `Dicts.try_get(obj, key, default)` (codetools.py lines 71-88).  A
possibly-`None` dictionary is embedded as `Option` of an association list
with distinct keys (a Python `dict`); `obj is None or key not in obj` yields
`TryGetResult(False, default)`, otherwise `TryGetResult(True, obj[key])`. -/
def Dicts.try_get {κ α : Type} [DecidableEq κ]
    (obj : Option (List (κ × α))) (key : κ) (dflt : α) : TryGetResult α :=
  match obj with
  | none => ⟨false, dflt⟩
  | some d =>
    match d.lookup key with
    | none => ⟨false, dflt⟩
    | some v => ⟨true, v⟩

/-- The state of a Python iterator: the elements it has yet to yield. -/
structure PyIterator (α : Type) where
  remaining : List α
  deriving DecidableEq, Repr

/-- `list(tee(it, 1)[0])` and its effect on the caller's iterator.
`itertools.tee` does not copy the iterator's state: the tee child it returns
pulls each element from the shared underlying iterator `it` on demand.
Materializing the child therefore yields every remaining element of `it`
and leaves `it` itself exhausted. -/
def teeChildElems {α : Type} (it : PyIterator α) : List α × PyIterator α :=
  (it.remaining, ⟨[]⟩)

/-- `Iters.count(it)` (codetools.py lines 95-108): make a tee child of `it`
and return `sum(1 for _ in t)`, together with the post-call state of the
caller's iterator. -/
def Iters.count {α : Type} (it : PyIterator α) : Nat × PyIterator α :=
  let te := teeChildElems it
  (te.1.foldl (fun acc _ => acc + 1) 0, te.2)

/-- Python list index adjustment: a negative index is offset by the list's
length. -/
def pyAdjustIndex (len : Nat) (i : Int) : Int :=
  if i < 0 then i + len else i

/-- Python list indexing `l[index]` for an `int` index: a negative index is
offset by `len(l)`; an index outside `0 ≤ index < len(l)` after that raises
`IndexError`. -/
def pyListGet {α : Type} (l : List α) (i : Int) : Except PyErr α :=
  if h : 0 ≤ pyAdjustIndex l.length i ∧
      (pyAdjustIndex l.length i).toNat < l.length then
    Except.ok (l.get ⟨(pyAdjustIndex l.length i).toNat, h.2⟩)
  else Except.error PyErr.indexError

/-- `Iters.get_item_at(it, index)` (codetools.py lines 110-124): make a tee
child of `it` and return `list(t)[index]`, together with the post-call state
of the caller's iterator. -/
def Iters.get_item_at {α : Type} (it : PyIterator α) (index : Int) :
    Except PyErr α × PyIterator α :=
  let te := teeChildElems it
  (pyListGet te.1 index, te.2)

/-! ### Lemmas about the case-insensitive dictionary -/

theorem lookup_cons (q k : String) (v : PyVal) (rest : CIDict) :
    List.lookup q ((k, v) :: rest) = if q = k then some v else List.lookup q rest := by
  by_cases h : q = k
  · subst h; simp [List.lookup]
  · simp [List.lookup, beq_eq_false_iff_ne.mpr h, h]

theorem lookup_map_overwrite (d : CIDict) (k v q) :
    ((d.map fun p => if p.1 == k then (p.1, v) else p).lookup q) =
      (d.lookup q).map fun w => if q = k then v else w := by
  induction d with
  | nil => rfl
  | cons a rest ih =>
    obtain ⟨ak, av⟩ := a
    by_cases h1 : ak = k <;> by_cases h2 : q = ak <;>
      simp_all [lookup_cons, List.map]

theorem lookup_append_some (d e : CIDict) (q : String) (w : PyVal)
    (h : d.lookup q = some w) : (d ++ e).lookup q = some w := by
  induction d with
  | nil => simp [List.lookup] at h
  | cons a rest ih =>
    obtain ⟨ak, av⟩ := a
    by_cases h2 : q = ak <;> simp_all [lookup_cons]

theorem lookup_append_none (d e : CIDict) (q : String)
    (h : d.lookup q = none) : (d ++ e).lookup q = e.lookup q := by
  induction d with
  | nil => simp
  | cons a rest ih =>
    obtain ⟨ak, av⟩ := a
    rw [lookup_cons] at h
    by_cases h2 : q = ak
    · rw [if_pos h2] at h; exact absurd h (by simp)
    · rw [if_neg h2] at h
      rw [List.cons_append, lookup_cons, if_neg h2]
      exact ih h

theorem lookup_none_of_any_false (d : CIDict) (k : String)
    (h : (d.any fun p => p.1 == k) = false) : d.lookup k = none := by
  induction d with
  | nil => rfl
  | cons a rest ih =>
    obtain ⟨ak, av⟩ := a
    simp only [List.any_cons, Bool.or_eq_false_iff] at h
    have hne : ¬ k = ak := fun he => by simp [he] at h
    rw [lookup_cons, if_neg hne]
    exact ih h.2

theorem lookup_isSome_of_any_true (d : CIDict) (k : String)
    (h : (d.any fun p => p.1 == k) = true) : (d.lookup k).isSome := by
  induction d with
  | nil => simp at h
  | cons a rest ih =>
    obtain ⟨ak, av⟩ := a
    rw [lookup_cons]
    by_cases h2 : k = ak
    · simp [h2]
    · rw [if_neg h2]
      apply ih
      simp only [List.any_cons, Bool.or_eq_true] at h
      rcases h with h1 | h1
      · exact absurd (eq_of_beq h1).symm h2
      · exact h1

/-- The characteristic equation of `ciInsert`: a case-insensitive lookup
after an insertion finds the inserted value exactly when the keys agree up
to case, and is otherwise unaffected. -/
theorem ciLookup_ciInsert (d : CIDict) (k : String) (v : PyVal) (q : String) :
    ciLookup (ciInsert d k v) q =
      if pyLower q = pyLower k then some v else ciLookup d q := by
  unfold ciLookup ciInsert
  by_cases hany : (d.any fun p => p.1 == pyLower k) = true
  · rw [if_pos hany, lookup_map_overwrite]
    by_cases hq : pyLower q = pyLower k
    · rw [if_pos hq]
      obtain ⟨w, hw⟩ := Option.isSome_iff_exists.mp
        (lookup_isSome_of_any_true d _ hany)
      rw [hq, hw]
      simp
    · rw [if_neg hq]
      cases hd : d.lookup (pyLower q) <;> simp [hq]
  · have hany2 : (d.any fun p => p.1 == pyLower k) = false := by
      cases hx : d.any fun p => p.1 == pyLower k
      · rfl
      · exact absurd hx hany
    rw [if_neg hany]
    by_cases hq : pyLower q = pyLower k
    · rw [if_pos hq, hq,
        lookup_append_none d _ _ (lookup_none_of_any_false d _ hany2),
        lookup_cons, if_pos rfl]
    · rw [if_neg hq]
      cases hd : d.lookup (pyLower q)
      · rw [lookup_append_none d _ _ hd, lookup_cons, if_neg hq]
        rfl
      · rw [lookup_append_some d _ _ _ hd]

/-- Inserting members none of whose names matches `q` case-insensitively
leaves the lookup of `q` unchanged. -/
theorem ciLookup_insertMembers_no_match (cid : Nat) (ms : List String)
    (d : CIDict) (q : String) (h : ∀ n ∈ ms, pyLower n ≠ pyLower q) :
    ciLookup (ms.foldl (fun acc n => ciInsert acc n (PyVal.member cid n)) d) q
      = ciLookup d q := by
  induction ms generalizing d with
  | nil => rfl
  | cons m rest ih =>
    rw [List.foldl_cons,
      ih (ciInsert d m (PyVal.member cid m)) fun n hn => h n (List.mem_cons_of_mem m hn),
      ciLookup_ciInsert,
      if_neg fun he => h m (List.mem_cons_self m rest) he.symm]

/-- When the member names of `ms` are pairwise distinct case-insensitively,
looking up any string matching the name `n` of a member case-insensitively
finds that member. -/
theorem ciLookup_insertMembers_match (cid : Nat) (ms : List String)
    (d : CIDict) (q n : String)
    (hdist : ms.Pairwise fun a b => pyLower a ≠ pyLower b)
    (hn : n ∈ ms) (hq : pyLower q = pyLower n) :
    ciLookup (ms.foldl (fun acc n => ciInsert acc n (PyVal.member cid n)) d) q
      = some (PyVal.member cid n) := by
  induction ms generalizing d with
  | nil => exact absurd hn (List.not_mem_nil n)
  | cons m rest ih =>
    rw [List.foldl_cons]
    by_cases hm : n = m
    · subst hm
      have hrest : ∀ b ∈ rest, pyLower b ≠ pyLower q := fun b hb he =>
        (List.pairwise_cons.mp hdist).1 b hb (hq ▸ he.symm)
      rw [ciLookup_insertMembers_no_match cid rest _ q hrest,
        ciLookup_ciInsert, if_pos hq]
    · exact ih (ciInsert d m (PyVal.member cid m))
        ((List.pairwise_cons.mp hdist).2) (List.mem_of_ne_of_mem hm hn)

/-- A string with no case-insensitive match among the member names is
absent from the built index. -/
theorem ciLookup_buildIndex_none (cls : PyClass) (q : String)
    (h : ∀ n ∈ cls.members, pyLower n ≠ pyLower q) :
    ciLookup (buildIndex cls) q = none :=
  ciLookup_insertMembers_no_match cls.clsId cls.members [] q h

/-- When the member names are pairwise distinct case-insensitively, the
built index resolves any string matching a member's name to that member. -/
theorem ciLookup_buildIndex_match (cls : PyClass) (q n : String)
    (hdist : cls.members.Pairwise fun a b => pyLower a ≠ pyLower b)
    (hn : n ∈ cls.members) (hq : pyLower q = pyLower n) :
    ciLookup (buildIndex cls) q = some (PyVal.member cls.clsId n) :=
  ciLookup_insertMembers_match cls.clsId cls.members [] q n hdist hn hq

/-! ### Concrete classes used as test inputs -/

/-- The builtin `str` class as `from_name` observes it: not an `Enum`
subclass, but a plain string is an instance of it. -/
def strClass : PyClass := ⟨100, false, true, []⟩

/-- An enumeration `class Color(Enum)` with members `RED`, `GREEN`, `BLUE`. -/
def colorClass : PyClass := ⟨1, true, false, ["RED", "GREEN", "BLUE"]⟩

/-- An enumeration `class Size(Enum)` with members `SMALL`, `LARGE`. -/
def sizeClass : PyClass := ⟨2, true, false, ["SMALL", "LARGE"]⟩

/-- An enumeration whose two member names `A` and `a` collide
case-insensitively (legal in Python: two distinct class attributes). -/
def caseCollideClass : PyClass := ⟨3, true, false, ["A", "a"]⟩

/-- Folding `+1` over a list starting from `n` yields `n` plus its length
(the embedding of `sum(1 for _ in t)`). -/
theorem foldl_add_one (α : Type) (l : List α) (n : Nat) :
    l.foldl (fun acc _ => acc + 1) n = n + l.length := by
  induction l generalizing n with
  | nil => rfl
  | cons a tl ih =>
    rw [List.foldl_cons, ih]
    simp only [List.length_cons]
    omega

/-! ### The claims -/

/-- C1: the spec claims `count` and `get_item_at` leave the caller's
original iterator intact, and the code's own comment says the tee copy is
made "so we don't exhaust the original iterator".  The code contradicts
both: the tee child shares the underlying iterator, so consuming it drains
the caller's iterator.  At the iterator over `[1, 2, 3]`, after `count` or
`get_item_at` the caller's iterator has nothing left to yield, instead of
the nonempty `[1, 2, 3]`. -/
theorem count_get_item_exhaust_source :
    (Iters.count (PyIterator.mk [1, 2, 3])).2.remaining = [] ∧
    (Iters.get_item_at (PyIterator.mk [1, 2, 3]) 0).2.remaining = [] ∧
    (PyIterator.mk [1, 2, 3]).remaining ≠ [] :=
  ⟨rfl, rfl, by decide⟩

/-- C2 (counterexample): the result-pair type has no field named `found` —
`namedtuple('TryResult', ['result', 'value'])` names the boolean flag field
`result`. -/
theorem tryGetResult_no_found_field : "found" ∉ TryGetResult.fieldNames := by
  decide

/-- C2 (amended): the result-pair type has exactly the two fields `result`
and `value`, in that positional order; for every result, `result` is the
boolean success flag and `value` the retrieved value, and the positional
(tuple) view agrees with the nominal accessors. -/
theorem tryGetResult_fields_spec :
    TryGetResult.fieldNames = ["result", "value"] ∧
    ∀ (α : Type) (b : Bool) (v : α),
      (TryGetResult.mk b v).result = b ∧ (TryGetResult.mk b v).value = v ∧
      (TryGetResult.mk b v).toPair = (b, v) :=
  ⟨rfl, fun _ _ _ => ⟨rfl, rfl, rfl⟩⟩

/-- C3 (counterexample): `str` is not an enumeration type, yet
`from_name(str, "x")` does not fail with `InvalidArgument`: the
`isinstance(name, enum_cls)` pass-through on line 44 fires before the
`issubclass(enum_cls, Enum)` check and returns `"x"` unchanged. -/
theorem from_name_str_class_no_error :
    strClass.isEnumSubclass = false ∧
    Enums.from_name strClass none (PyVal.str "x") =
      (Except.ok (PyVal.str "x"), none) :=
  ⟨rfl, rfl⟩

/-- C3 (amended): for every class that is not an `Enum` subclass and of
which the string argument is not an instance, `from_name` fails with the
`InvalidArgument` (`ValueError`) error. -/
theorem from_name_non_enum_invalid (cls : PyClass) (cached : Option CIDict)
    (s : String) (hE : cls.isEnumSubclass = false)
    (hstr : cls.strIsInstance = false) :
    (Enums.from_name cls cached (PyVal.str s)).1 =
      Except.error (PyErr.valueError enumClassMsg) := by
  simp [Enums.from_name, pyIsInstance, hE, hstr]

/-- C3 (witness): the amended claim at a concrete non-enumeration class. -/
theorem from_name_non_enum_invalid_witness :
    (Enums.from_name (PyClass.mk 200 false false []) none (PyVal.str "x")).1 =
      Except.error (PyErr.valueError enumClassMsg) :=
  from_name_non_enum_invalid (PyClass.mk 200 false false []) none "x" rfl rfl

/-- C4 (counterexample): the `KeyNotFound` error does not identify the
enumeration type — two distinct enumeration classes raise the very same
error for the same unmatched name `"zzz"`, so the error cannot identify
which type was looked up.  The code raises the bare `KeyError` of the
case-insensitive dictionary (line 64), which carries only the key. -/
theorem from_name_keyerror_ignores_type :
    colorClass ≠ sizeClass ∧
    (Enums.from_name colorClass none (PyVal.str "zzz")).1 =
      Except.error (PyErr.keyError "zzz") ∧
    (Enums.from_name sizeClass none (PyVal.str "zzz")).1 =
      Except.error (PyErr.keyError "zzz") :=
  ⟨by decide, rfl, rfl⟩

/-- C4 (amended): for every enumeration type and every string with no
case-insensitive match among its member names, `from_name` fails with a
`KeyNotFound` (`KeyError`) error identifying the unmatched name. -/
theorem from_name_missing_name_keyerror (cls : PyClass) (cached : Option CIDict)
    (s : String) (hE : cls.isEnumSubclass = true)
    (hstr : cls.strIsInstance = false)
    (hcache : cached = none ∨ cached = some (buildIndex cls))
    (hmiss : ∀ n ∈ cls.members, pyLower n ≠ pyLower s) :
    (Enums.from_name cls cached (PyVal.str s)).1 =
      Except.error (PyErr.keyError s) := by
  have hlook := ciLookup_buildIndex_none cls s hmiss
  rcases hcache with h | h <;> subst h <;>
    simp [Enums.from_name, pyIsInstance, hE, hstr, hlook]

/-- C4 (witness): the amended claim at a concrete enumeration and name. -/
theorem from_name_missing_name_keyerror_witness :
    (Enums.from_name sizeClass none (PyVal.str "zz")).1 =
      Except.error (PyErr.keyError "zz") :=
  from_name_missing_name_keyerror sizeClass none "zz" rfl rfl (Or.inl rfl)
    (by decide)

/-- C5: `try_get` is total (it returns a `TryGetResult`, never an
exception); with an absent mapping or a missing key it returns
`(found := false, value := default)`, and with a present key it returns
`(found := true, value := mapping[key])`. -/
theorem try_get_spec (κ α : Type) [DecidableEq κ]
    (obj : Option (List (κ × α))) (key : κ) (dflt : α) :
    ((obj = none ∨ ∀ d, obj = some d → d.lookup key = none) →
        Dicts.try_get obj key dflt = ⟨false, dflt⟩) ∧
    (∀ d v, obj = some d → d.lookup key = some v →
        Dicts.try_get obj key dflt = ⟨true, v⟩) := by
  constructor
  · rintro (h | h)
    · subst h; rfl
    · cases obj with
      | none => rfl
      | some d => simp [Dicts.try_get, h d rfl]
  · rintro d v rfl hv
    simp [Dicts.try_get, hv]

/-- C5 (witness): the claim at the spec's own example,
`try_get({"a": 1}, "b", 0)` and `try_get({"a": 1}, "a", 0)`. -/
theorem try_get_spec_witness :
    Dicts.try_get (some [("a", 1)]) "b" (0 : Nat) = ⟨false, 0⟩ ∧
    Dicts.try_get (some [("a", 1)]) "a" (0 : Nat) = ⟨true, 1⟩ := by
  constructor
  · exact (try_get_spec String Nat (some [("a", 1)]) "b" 0).1
      (Or.inr fun d hd => by cases hd; rfl)
  · exact (try_get_spec String Nat (some [("a", 1)]) "a" 0).2 [("a", 1)] 1 rfl
      rfl

/-- C6: passing an existing member of the enumeration to `from_name`
returns it unchanged (and touches neither the cache nor the index): the
`isinstance(name, enum_cls)` check on line 44 returns it immediately. -/
theorem from_name_member_passthrough (cls : PyClass) (cached : Option CIDict)
    (n : String) (_hn : n ∈ cls.members) :
    Enums.from_name cls cached (PyVal.member cls.clsId n) =
      (Except.ok (PyVal.member cls.clsId n), cached) := by
  simp [Enums.from_name, pyIsInstance]

/-- C6 (witness): pass-through at a concrete member. -/
theorem from_name_member_passthrough_witness :
    Enums.from_name colorClass none (PyVal.member colorClass.clsId "RED") =
      (Except.ok (PyVal.member colorClass.clsId "RED"), none) :=
  from_name_member_passthrough colorClass none "RED" (by decide)

/-- C7 (counterexample): an enumeration may legally have two members whose
names differ only in case; the case-insensitive index can hold only one of
them, so on the class with members `A` and `a` at least one of the two
lookups by exact name fails to return its own member. -/
theorem from_name_case_collision :
    ¬ ((Enums.from_name caseCollideClass none (PyVal.str "A")).1 =
          Except.ok (PyVal.member caseCollideClass.clsId "A") ∧
        (Enums.from_name caseCollideClass none (PyVal.str "a")).1 =
          Except.ok (PyVal.member caseCollideClass.clsId "a")) := by
  intro hcon
  have h1 : Except.ok (PyVal.member caseCollideClass.clsId "a") =
      Except.ok (PyVal.member caseCollideClass.clsId "A") := hcon.1
  injection h1 with h2
  injection h2 with h3 h4
  exact absurd h4 (by decide)

/-- C7 (amended): for every enumeration type whose member names are
pairwise distinct case-insensitively, every member `m` and every string
equal to `m`'s name up to character case, `from_name` returns `m`. -/
theorem from_name_case_insensitive (cls : PyClass) (cached : Option CIDict)
    (n s : String) (hE : cls.isEnumSubclass = true)
    (hstr : cls.strIsInstance = false)
    (hcache : cached = none ∨ cached = some (buildIndex cls))
    (hdist : cls.members.Pairwise fun a b => pyLower a ≠ pyLower b)
    (hn : n ∈ cls.members) (hs : pyLower s = pyLower n) :
    (Enums.from_name cls cached (PyVal.str s)).1 =
      Except.ok (PyVal.member cls.clsId n) := by
  have hlook := ciLookup_buildIndex_match cls s n hdist hn hs
  rcases hcache with h | h <;> subst h <;>
    simp [Enums.from_name, pyIsInstance, hE, hstr, hlook]

/-- C7 (witness): the spec's own example, `from_name(Color, "green")`
returning `Color.GREEN`. -/
theorem from_name_case_insensitive_witness :
    (Enums.from_name colorClass none (PyVal.str "green")).1 =
      Except.ok (PyVal.member colorClass.clsId "GREEN") :=
  from_name_case_insensitive colorClass none "GREEN" "green" rfl rfl
    (Or.inl rfl) (by decide) (by decide) (by decide)

/-- C8: `count` returns the number of elements remaining in the
iterator's sequence. -/
theorem count_returns_length (α : Type) (it : PyIterator α) :
    (Iters.count it).1 = it.remaining.length := by
  simp [Iters.count, teeChildElems, foldl_add_one]

/-- C9: for a zero-based index within range, `get_item_at` returns the
element of the sequence at that index; for an index at or beyond the
sequence's length it fails with `IndexOutOfRange` (`IndexError`). -/
theorem get_item_at_index_spec (α : Type) (it : PyIterator α) (i : Nat) :
    (∀ h : i < it.remaining.length,
        (Iters.get_item_at it (i : Int)).1 =
          Except.ok (it.remaining.get ⟨i, h⟩)) ∧
    (it.remaining.length ≤ i →
        (Iters.get_item_at it (i : Int)).1 = Except.error PyErr.indexError) := by
  have hadj : pyAdjustIndex it.remaining.length (i : Int) = (i : Int) := by
    unfold pyAdjustIndex
    rw [if_neg (by omega)]
  constructor
  · intro h
    have hc : 0 ≤ pyAdjustIndex it.remaining.length (i : Int) ∧
        (pyAdjustIndex it.remaining.length (i : Int)).toNat <
          it.remaining.length := by
      rw [hadj]
      constructor
      · omega
      · simpa using h
    simp only [Iters.get_item_at, teeChildElems, pyListGet, dif_pos hc]
    refine congrArg Except.ok (congrArg it.remaining.get (Fin.ext ?_))
    show (pyAdjustIndex it.remaining.length (i : Int)).toNat = i
    rw [hadj]
    omega
  · intro h
    have hc : ¬ (0 ≤ pyAdjustIndex it.remaining.length (i : Int) ∧
        (pyAdjustIndex it.remaining.length (i : Int)).toNat <
          it.remaining.length) := by
      rw [hadj]
      omega
    simp only [Iters.get_item_at, teeChildElems, pyListGet, dif_neg hc]

/-- C9 (witness): in-range and out-of-range access on `[10, 20, 30]`. -/
theorem get_item_at_index_spec_witness :
    (Iters.get_item_at (PyIterator.mk [10, 20, 30]) ((1 : Nat) : Int)).1 =
      Except.ok 20 ∧
    (Iters.get_item_at (PyIterator.mk [10, 20, 30]) ((3 : Nat) : Int)).1 =
      Except.error PyErr.indexError := by
  constructor
  · have h :=
      (get_item_at_index_spec Nat (PyIterator.mk [10, 20, 30]) 1).1 (by decide)
    simpa using h
  · exact (get_item_at_index_spec Nat (PyIterator.mk [10, 20, 30]) 3).2
      (by decide)

/-- C10: a negative index between `-len(s)` and `-1` does not fail:
`get_item_at` returns the element at `len(s) + index`, counted from the
end of the sequence (Python's negative-index convention on `list(t)`). -/
theorem get_item_at_negative_index (α : Type) (it : PyIterator α) (i : Int)
    (h1 : -(it.remaining.length : Int) ≤ i) (h2 : i < 0)
    (h3 : (i + it.remaining.length).toNat < it.remaining.length) :
    (Iters.get_item_at it i).1 =
      Except.ok (it.remaining.get ⟨(i + it.remaining.length).toNat, h3⟩) := by
  have hadj : pyAdjustIndex it.remaining.length i = i + it.remaining.length := by
    unfold pyAdjustIndex
    rw [if_pos h2]
  have hc : 0 ≤ pyAdjustIndex it.remaining.length i ∧
      (pyAdjustIndex it.remaining.length i).toNat < it.remaining.length := by
    rw [hadj]
    exact ⟨by omega, h3⟩
  simp only [Iters.get_item_at, teeChildElems, pyListGet, dif_pos hc]
  refine congrArg Except.ok (congrArg it.remaining.get (Fin.ext ?_))
  show (pyAdjustIndex it.remaining.length i).toNat =
    (i + it.remaining.length).toNat
  rw [hadj]

/-- C10 (witness): `get_item_at` with index `-1` on `[10, 20, 30]`
returns the last element `30`. -/
theorem get_item_at_negative_index_witness :
    (Iters.get_item_at (PyIterator.mk [10, 20, 30]) (-1)).1 =
      Except.ok 30 := by
  have h := get_item_at_negative_index Nat (PyIterator.mk [10, 20, 30]) (-1)
    (by decide) (by decide) (by decide)
  simpa using h

end Codetools
